import Mathlib

/-!
Shallow embedding of the retry/resilience layer of the jobkroea-updater
repository: the operation retrier (`withRetry`), the process retrier
(`withBrowserRestart`) from `src/utils/retry.ts`, the adaptive timeout
estimator (`AdaptiveTimeoutManager`) from `src/utils/adaptiveTimeout.ts`,
the notification transport (`sendTelegramMessage`) from `src/notify.ts`,
and the selector fallback resolver (`JobKoreaService.waitForAnySelector`)
from `src/services/jobkorea.ts`.

JavaScript numbers are modelled as rationals (ℚ), `Math.round` as
Mathlib's `round` (both are ⌊x + 1/2⌋), `Math.floor` as `Int.floor`.
Thrown JavaScript `Error` objects are modelled by `JsError`; a fallible
async action is a function from the 1-indexed attempt number to
`Except JsError α` describing the outcome of that attempt.  Injected
`setTimeout` delays are collected in a trace.
-/

/-- Model of a JavaScript `Error` object carrying its message. -/
structure JsError where
  message : String
deriving DecidableEq, Repr

/-- The `RetryOptions` record of `src/utils/retry.ts` (all fields resolved,
after defaulting).  `maxRetries` is an integer because the JS number may be
zero or negative; the other fields are JS numbers. -/
structure RetryOptions where
  maxRetries : Int
  baseDelay : ℚ
  maxDelay : ℚ
  backoffMultiplier : ℚ
deriving DecidableEq, Repr

/-- The delay computed in `withRetry` after a failed attempt `attempt`:
`Math.min(baseDelay * Math.pow(backoffMultiplier, attempt - 1), maxDelay)`. -/
def retryDelay (o : RetryOptions) (attempt : ℕ) : ℚ :=
  min (o.baseDelay * o.backoffMultiplier ^ (attempt - 1)) o.maxDelay

/-- Observable outcome of a `withRetry` run: the returned value or thrown
error, the number of times the wrapped action was invoked, and the list of
delays injected (via `setTimeout`) between invocations, in order. -/
structure RetryTrace (α : Type) where
  result : Except JsError α
  invocs : ℕ
  delays : List ℚ
deriving Repr

/-- Loop body of `withRetry` (`src/utils/retry.ts`).  `attempt` is the
1-indexed loop counter, `fuel` the number of loop iterations still allowed
(`maxRetries - attempt + 1`), `lastError` the current value of the
`lastError` variable, `invocs`/`delays` the trace accumulated so far.
When `fuel` reaches `0` the loop exits and the final `throw lastError`
runs; inside an iteration, a failure at `attempt === maxRetries`
(i.e. `fuel = 1`) re-throws the caught error with no further delay. -/
def withRetryGo (fn : ℕ → Except JsError α) (o : RetryOptions) :
    ℕ → ℕ → JsError → ℕ → List ℚ → RetryTrace α
  | _, 0, lastError, invocs, delays => ⟨.error lastError, invocs, delays⟩
  | attempt, fuel + 1, _, invocs, delays =>
    match fn attempt with
    | .ok v => ⟨.ok v, invocs + 1, delays⟩
    | .error e =>
      if fuel = 0 then ⟨.error e, invocs + 1, delays⟩
      else withRetryGo fn o (attempt + 1) fuel e (invocs + 1)
        (delays ++ [retryDelay o attempt])

/-- Model of `withRetry` from `src/utils/retry.ts`: runs `fn` for attempts
`1..maxRetries`; returns on first success; on failure before the last
attempt injects the exponential-backoff delay and retries; on failure at
the last attempt re-throws the caught error; with `maxRetries ≤ 0` the
loop body never runs and the initial `lastError = Error("No attempts
made")` is thrown. -/
def withRetry (fn : ℕ → Except JsError α) (o : RetryOptions) : RetryTrace α :=
  withRetryGo fn o 1 o.maxRetries.toNat ⟨"No attempts made"⟩ 0 []

/-- Observable outcome of a `withBrowserRestart` run: result, number of
workflow invocations, number of restart-callback invocations that threw
(these are caught and only logged), and the injected delays. -/
structure ProcessRetryTrace (α : Type) where
  result : Except JsError α
  invocs : ℕ
  restartFailures : ℕ
  delays : List ℚ
deriving Repr

/-- Loop body of `withBrowserRestart` (`src/utils/retry.ts`).  After a
failure at a non-final attempt the restart callback is run inside its own
`try`/`catch` whose `catch` only logs (modelled by counting restart
failures), and then a fixed delay of `baseDelay` is injected. -/
def withBrowserRestartGo (fn : ℕ → Except JsError α)
    (restart : ℕ → Except JsError Unit) (o : RetryOptions) :
    ℕ → ℕ → JsError → ℕ → ℕ → List ℚ → ProcessRetryTrace α
  | _, 0, lastError, invocs, rf, delays => ⟨.error lastError, invocs, rf, delays⟩
  | attempt, fuel + 1, _, invocs, rf, delays =>
    match fn attempt with
    | .ok v => ⟨.ok v, invocs + 1, rf, delays⟩
    | .error e =>
      if fuel = 0 then ⟨.error e, invocs + 1, rf, delays⟩
      else
        let rf2 := match restart attempt with
          | .ok _ => rf
          | .error _ => rf + 1
        withBrowserRestartGo fn restart o (attempt + 1) fuel e (invocs + 1)
          rf2 (delays ++ [o.baseDelay])

/-- Model of `withBrowserRestart` from `src/utils/retry.ts` (the
process-level retrier: only `maxRetries` and the fixed `baseDelay` of the
retry configuration are used — no exponential backoff). -/
def withBrowserRestart (fn : ℕ → Except JsError α)
    (restart : ℕ → Except JsError Unit) (o : RetryOptions) :
    ProcessRetryTrace α :=
  withBrowserRestartGo fn restart o 1 o.maxRetries.toNat
    ⟨"No attempts made"⟩ 0 0 []

/-- The four operation categories of `getAdaptiveTimeout`
(the `OperationType` union of `src/types/index.ts`). -/
inductive OperationType where
  | navigation
  | element
  | popup
  | network
deriving DecidableEq, Repr

/-- The `TimeoutMetrics` record of `src/utils/adaptiveTimeout.ts`.  The
`AdaptiveTimeoutManager` singleton owns exactly one such record: the code
keeps no per-category state. -/
structure TimeoutMetrics where
  averageResponseTime : ℚ
  successRate : ℚ
  lastMeasurements : List ℚ
  measurementCount : ℕ
deriving DecidableEq, Repr

/-- The initial value of `AdaptiveTimeoutManager.metrics` (also the value
restored by `resetMetrics`). -/
def initialMetrics : TimeoutMetrics :=
  { averageResponseTime := 0
    successRate := 1
    lastMeasurements := []
    measurementCount := 0 }

/-- The hard-coded `AdaptiveTimeoutConfig` of `AdaptiveTimeoutManager`
(`baseTimeout 15000`, `minTimeout 5000`, `maxTimeout 30000`,
`measurementWindow 10`, `successThreshold 0.8`, `failureMultiplier 1.5`,
`successMultiplier 0.9`). -/
structure AdaptiveTimeoutConfig where
  baseTimeout : ℚ
  minTimeout : ℚ
  maxTimeout : ℚ
  measurementWindow : ℕ
  successThreshold : ℚ
  failureMultiplier : ℚ
  successMultiplier : ℚ
deriving Repr

def adaptiveConfig : AdaptiveTimeoutConfig :=
  { baseTimeout := 15000
    minTimeout := 5000
    maxTimeout := 30000
    measurementWindow := 10
    successThreshold := 4 / 5
    failureMultiplier := 3 / 2
    successMultiplier := 9 / 10 }

/-- Model of `AdaptiveTimeoutManager.recordMeasurement`: on success, pushes
the response time onto `lastMeasurements`, drops the oldest sample
(`shift`) if the window length exceeds `measurementWindow`, and recomputes
the average; in every case increments `measurementCount` and recomputes
`successRate = lastMeasurements.length / min(measurementWindow,
measurementCount)`.  The method takes no operation category: there is a
single shared metrics record. -/
def recordMeasurement (responseTime : ℚ) (success : Bool)
    (m : TimeoutMetrics) : TimeoutMetrics :=
  let m1 :=
    if success then
      let pushed := m.lastMeasurements ++ [responseTime]
      let window :=
        if pushed.length > adaptiveConfig.measurementWindow then pushed.tail
        else pushed
      { m with
        lastMeasurements := window
        averageResponseTime := window.sum / (window.length : ℚ) }
    else m
  let count := m1.measurementCount + 1
  let recentWindow := min adaptiveConfig.measurementWindow count
  { m1 with
    measurementCount := count
    successRate := (m1.lastMeasurements.length : ℚ) / (recentWindow : ℚ) }

/-- The per-category base timeouts of the `switch` in
`getAdaptiveTimeout` (navigation 20000, element 15000, popup 10000,
network 8000; the `default` branch is unreachable because the
`OperationType` union has exactly these four members). -/
def baseTimeoutFor : OperationType → ℚ
  | .navigation => 20000
  | .element => 15000
  | .popup => 10000
  | .network => 8000

/-- Model of `AdaptiveTimeoutManager.getAdaptiveTimeout`: below 3 recorded
measurements the per-category base is returned unchanged (no rounding, no
clamp); otherwise the base is scaled by the failure multiplier (success
rate below the threshold) or the success multiplier (success rate above
0.95), raised to `averageResponseTime * 2.5` when the average is positive,
clamped to `[minTimeout, maxTimeout]`, and rounded (`Math.round`). -/
def getAdaptiveTimeout (operationType : OperationType)
    (m : TimeoutMetrics) : ℚ :=
  let baseTimeout := baseTimeoutFor operationType
  if m.measurementCount < 3 then baseTimeout
  else
    let t1 :=
      if m.successRate < adaptiveConfig.successThreshold then
        baseTimeout * adaptiveConfig.failureMultiplier
      else if m.successRate > 19 / 20 then
        baseTimeout * adaptiveConfig.successMultiplier
      else baseTimeout
    let t2 :=
      if m.averageResponseTime > 0 then
        max t1 (m.averageResponseTime * (5 / 2))
      else t1
    let t3 := max adaptiveConfig.minTimeout (min adaptiveConfig.maxTimeout t2)
    ((round t3 : ℤ) : ℚ)

/-- Attribution of a measurement to the category of the operation it was
measured for.  In the source, `recordMeasurement` takes no category
argument (`withTimeoutMeasurement` passes only duration and success), so
the attribution category is discarded: every call updates the single
shared metrics record. -/
def recordMeasurementFor (_ : OperationType) (responseTime : ℚ)
    (success : Bool) (m : TimeoutMetrics) : TimeoutMetrics :=
  recordMeasurement responseTime success m

/-- Sequence of `recordMeasurement` calls applied in order to the initial
estimator state; each list entry is a (duration, success) pair. -/
def applyMeasurements (l : List (ℚ × Bool)) : TimeoutMetrics :=
  l.foldl (fun m p => recordMeasurement p.1 p.2 m) initialMetrics

/-- Durations of the successful measurements of a recorded sequence, in
recording order (bookkeeping used to state which samples the FIFO window
retains). -/
def successDurations (l : List (ℚ × Bool)) : List ℚ :=
  (l.filter (fun p => p.2)).map (fun p => p.1)

/-- Outcome of one `fetch` of the Telegram API as observed by
`sendTelegramMessage`: either the promise rejects (network failure) or a
response with an HTTP status, status text and body arrives. -/
inductive FetchOutcome where
  | networkError (e : JsError)
  | response (status : ℕ) (statusText : String) (body : String)
deriving Repr

/-- Model of one attempt of the action `sendTelegramMessage`
(`src/notify.ts`) passes to `withRetry`: a response with `response.ok`
(status 200–299) resolves with the parsed body; any non-ok response
throws `Error("Telegram API error: ...")` — the 4xx branch (logged as
permanent) and the 5xx branch (logged as transient) throw that same error
into the retrier; a fetch rejection propagates as is. -/
def telegramAttempt (env : ℕ → FetchOutcome) (k : ℕ) :
    Except JsError String :=
  match env k with
  | .networkError e => .error e
  | .response status statusText body =>
    if 200 ≤ status ∧ status < 300 then .ok body
    else .error ⟨"Telegram API error: " ++ toString status ++ " " ++
      statusText ++ " - " ++ body⟩

/-- The retry policy `sendTelegramMessage` passes to `withRetry`: the
`RETRY_CONFIG` constant of `src/constants.ts`, which re-exports
`defaultConfig.retry` of `src/config/index.ts` — `maxOperationRetries 3`,
`baseDelay 2000`, `maxDelay 10000`, `backoffMultiplier 2`. -/
def RETRY_CONFIG : RetryOptions := ⟨3, 2000, 10000, 2⟩

/-- Model of `sendTelegramMessage` (`src/notify.ts`): the fetch attempt
wrapped in `withRetry` with the `RETRY_CONFIG` policy. -/
def sendTelegramMessage (env : ℕ → FetchOutcome) : RetryTrace String :=
  withRetry (telegramAttempt env) RETRY_CONFIG

/-- Error thrown when the candidate loop of `waitForAnySelector` exhausts
all selectors (`모든 셀렉터 실패` = "all selectors failed"), listing every
attempted candidate. -/
def selectorFailureMessage (selectors : List String) : JsError :=
  ⟨"모든 셀렉터 실패: " ++ String.intercalate ", " selectors⟩

/-- Candidate loop of `JobKoreaService.waitForAnySelector`
(`src/services/jobkorea.ts`): tries each selector in order, each with the
same per-candidate timeout slice; a successful wait returns that selector
immediately.  `wait s t` tells whether `page.waitForSelector(s,
{state, timeout: t})` resolves within `t`; the returned trace lists each
`waitForSelector` call as a (selector, timeout) pair, in order. -/
def waitForAnySelectorGo (wait : String → ℤ → Bool) (slice : ℤ)
    (all : List String) :
    List String → Except JsError String × List (String × ℤ)
  | [] => (.error (selectorFailureMessage all), [])
  | s :: rest =>
    if wait s slice then (.ok s, [(s, slice)])
    else
      let r := waitForAnySelectorGo wait slice all rest
      (r.1, (s, slice) :: r.2)

/-- Model of `waitForAnySelector`: every candidate is tried with the
per-candidate slice `Math.floor(adaptiveTimeout / selectors.length)` of
the overall timeout budget. -/
def waitForAnySelector (wait : String → ℤ → Bool) (selectors : List String)
    (timeoutBudget : ℚ) : Except JsError String × List (String × ℤ) :=
  waitForAnySelectorGo wait
    (Int.floor (timeoutBudget / (selectors.length : ℚ))) selectors selectors

lemma withBrowserRestartGo_restart_irrelevant {α : Type}
    (fn : ℕ → Except JsError α) (restart restart' : ℕ → Except JsError Unit)
    (o : RetryOptions) :
    ∀ (fuel attempt : ℕ) (le : JsError) (invocs rf rf' : ℕ) (delays : List ℚ),
      (withBrowserRestartGo fn restart o attempt fuel le invocs rf delays).result =
        (withBrowserRestartGo fn restart' o attempt fuel le invocs rf' delays).result ∧
      (withBrowserRestartGo fn restart o attempt fuel le invocs rf delays).invocs =
        (withBrowserRestartGo fn restart' o attempt fuel le invocs rf' delays).invocs ∧
      (withBrowserRestartGo fn restart o attempt fuel le invocs rf delays).delays =
        (withBrowserRestartGo fn restart' o attempt fuel le invocs rf' delays).delays := by
  intro fuel
  induction fuel with
  | zero => intro attempt le invocs rf rf' delays; exact ⟨rfl, rfl, rfl⟩
  | succ fuel ih =>
    intro attempt le invocs rf rf' delays
    simp only [withBrowserRestartGo]
    cases fn attempt with
    | ok v => exact ⟨rfl, rfl, rfl⟩
    | error e =>
      by_cases hf : fuel = 0
      · simp [hf]
      · simp only [hf, if_false]
        exact ih (attempt + 1) e (invocs + 1) _ _ (delays ++ [o.baseDelay])

lemma withBrowserRestartGo_delays_replicate {α : Type}
    (fn : ℕ → Except JsError α) (restart : ℕ → Except JsError Unit)
    (o : RetryOptions) :
    ∀ (fuel attempt : ℕ) (le : JsError) (invocs rf : ℕ) (delays : List ℚ),
      0 < fuel →
      (withBrowserRestartGo fn restart o attempt fuel le invocs rf delays).delays =
        delays ++ List.replicate
          ((withBrowserRestartGo fn restart o attempt fuel le invocs rf delays).invocs
            - invocs - 1) o.baseDelay ∧
      invocs <
        (withBrowserRestartGo fn restart o attempt fuel le invocs rf delays).invocs := by
  intro fuel
  induction fuel with
  | zero => intro _ _ _ _ _ h; exact absurd h (by omega)
  | succ fuel ih =>
    intro attempt le invocs rf delays _
    simp only [withBrowserRestartGo]
    cases fn attempt with
    | ok v => simp
    | error e =>
      by_cases hf : fuel = 0
      · simp [hf]
      · simp only [hf, if_false]
        obtain ⟨hd, hi⟩ := ih (attempt + 1) e (invocs + 1)
          (match restart attempt with | .ok _ => rf | .error _ => rf + 1)
          (delays ++ [o.baseDelay]) (by omega)
        refine ⟨?_, by omega⟩
        rw [hd]
        have harith :
            (withBrowserRestartGo fn restart o (attempt + 1) fuel e (invocs + 1)
              (match restart attempt with | .ok _ => rf | .error _ => rf + 1)
              (delays ++ [o.baseDelay])).invocs - invocs - 1 =
            ((withBrowserRestartGo fn restart o (attempt + 1) fuel e (invocs + 1)
              (match restart attempt with | .ok _ => rf | .error _ => rf + 1)
              (delays ++ [o.baseDelay])).invocs - (invocs + 1) - 1) + 1 := by
          omega
        rw [harith, List.replicate_succ, List.append_assoc]
        rfl

/-- C4: in `withBrowserRestart`, a failure of the restart callback at any
non-final attempt is swallowed: the returned result, the number of
workflow invocations and the injected delays are identical for any two
restart callbacks (in particular for one that always throws and one that
always succeeds), so a restart failure never becomes the overall result
and the loop proceeds to the next workflow invocation; moreover every
inter-attempt delay is the fixed `baseDelay` (one delay per non-final
failed attempt, none after the last invocation). -/
theorem withBrowserRestart_swallows_restart_failures {α : Type}
    (fn : ℕ → Except JsError α) (restart restart' : ℕ → Except JsError Unit)
    (o : RetryOptions) :
    (withBrowserRestart fn restart o).result =
      (withBrowserRestart fn restart' o).result ∧
    (withBrowserRestart fn restart o).invocs =
      (withBrowserRestart fn restart' o).invocs ∧
    (withBrowserRestart fn restart o).delays =
      (withBrowserRestart fn restart' o).delays ∧
    (withBrowserRestart fn restart o).delays =
      List.replicate ((withBrowserRestart fn restart o).invocs - 1)
        o.baseDelay := by
  obtain ⟨h1, h2, h3⟩ := withBrowserRestartGo_restart_irrelevant fn restart restart' o
    o.maxRetries.toNat 1 ⟨"No attempts made"⟩ 0 0 0 []
  refine ⟨h1, h2, h3, ?_⟩
  by_cases hz : o.maxRetries.toNat = 0
  · simp [withBrowserRestart, hz, withBrowserRestartGo]
  · obtain ⟨hd, _⟩ := withBrowserRestartGo_delays_replicate fn restart o
      o.maxRetries.toNat 1 ⟨"No attempts made"⟩ 0 0 [] (by omega)
    simpa [withBrowserRestart] using hd

/-- C3: `withRetry` with `maxRetries = 3`, `baseDelay = 2000`,
`maxDelay = 10000`, `backoffMultiplier = 2` and an action that rejects on
every attempt invokes the action exactly 3 times, injects delays of
2000ms then 4000ms between invocations (total 6000ms, none after the
final failure), and re-raises the rejection reason of the final attempt
unchanged. -/
theorem withRetry_always_failing_three_attempts {α : Type}
    (fn : ℕ → Except JsError α) (e : ℕ → JsError)
    (h : ∀ k, fn k = .error (e k)) :
    withRetry fn ⟨3, 2000, 10000, 2⟩ = ⟨.error (e 3), 3, [2000, 4000]⟩ ∧
    (withRetry fn ⟨3, 2000, 10000, 2⟩).delays.sum = 6000 := by
  have heq : withRetry fn ⟨3, 2000, 10000, 2⟩ =
      ⟨.error (e 3), 3, [2000, 4000]⟩ := by
    simp [withRetry, withRetryGo, retryDelay, h 1, h 2, h 3]
    norm_num
  refine ⟨heq, ?_⟩
  rw [heq]
  norm_num

/-- Witness for C3 at a concrete always-rejecting action. -/
theorem withRetry_always_failing_three_attempts_witness :
    (∀ k : ℕ, (fun _ : ℕ => (Except.error ⟨"boom"⟩ : Except JsError ℕ)) k =
      Except.error ((fun _ : ℕ => (⟨"boom"⟩ : JsError)) k)) ∧
    withRetry (fun _ => (Except.error ⟨"boom"⟩ : Except JsError ℕ))
      ⟨3, 2000, 10000, 2⟩ = ⟨.error ⟨"boom"⟩, 3, [2000, 4000]⟩ :=
  ⟨fun _ => rfl,
    (withRetry_always_failing_three_attempts _ _ (fun _ => rfl)).1⟩

/-- C10: with `maxRetries ≤ 0`, both `withRetry` and `withBrowserRestart`
never invoke the wrapped action and reject with the generic
`Error("No attempts made")`. -/
theorem retry_nonpositive_max_no_attempts {α : Type}
    (fn : ℕ → Except JsError α) (restart : ℕ → Except JsError Unit)
    (o : RetryOptions) (h : o.maxRetries ≤ 0) :
    withRetry fn o = ⟨.error ⟨"No attempts made"⟩, 0, []⟩ ∧
    withBrowserRestart fn restart o =
      ⟨.error ⟨"No attempts made"⟩, 0, 0, []⟩ := by
  have hz : o.maxRetries.toNat = 0 := Int.toNat_of_nonpos h
  exact ⟨by simp [withRetry, hz, withRetryGo],
    by simp [withBrowserRestart, hz, withBrowserRestartGo]⟩

/-- Witness for C10 at `maxRetries = 0`. -/
theorem retry_nonpositive_max_no_attempts_witness :
    ((⟨0, 2000, 10000, 2⟩ : RetryOptions).maxRetries ≤ 0) ∧
    withRetry (fun _ => (Except.ok 5 : Except JsError ℕ))
      ⟨0, 2000, 10000, 2⟩ = ⟨.error ⟨"No attempts made"⟩, 0, []⟩ :=
  ⟨by decide,
    (retry_nonpositive_max_no_attempts (fun _ => Except.ok 5)
      (fun _ => Except.ok ()) _ (by decide)).1⟩

lemma le_round_of_cast_le {q : ℚ} {n : ℤ} (h : (n : ℚ) ≤ q) : n ≤ round q := by
  rw [round_eq]
  calc n = ⌊((n : ℤ) : ℚ)⌋ := (Int.floor_intCast n).symm
    _ ≤ ⌊q + 1 / 2⌋ := Int.floor_mono (by linarith)

lemma round_le_of_le_cast {q : ℚ} {n : ℤ} (h : q ≤ (n : ℚ)) : round q ≤ n := by
  rw [round_eq]
  calc ⌊q + 1 / 2⌋ ≤ ⌊((n : ℤ) : ℚ) + 1 / 2⌋ := Int.floor_mono (by linarith)
    _ = n + ⌊(1 / 2 : ℚ)⌋ := Int.floor_int_add n (1 / 2)
    _ = n := by norm_num

lemma round_clamp_mem (X : ℚ) :
    (5000 : ℚ) ≤ ((round (max 5000 (min 30000 X)) : ℤ) : ℚ) ∧
    ((round (max 5000 (min 30000 X)) : ℤ) : ℚ) ≤ 30000 := by
  constructor
  · have h := le_round_of_cast_le (n := 5000) (q := max 5000 (min 30000 X))
      (by push_cast; exact le_max_left _ _)
    exact_mod_cast h
  · have hq : max (5000 : ℚ) (min 30000 X) ≤ 30000 :=
      max_le (by norm_num) (min_le_left _ _)
    have h := round_le_of_le_cast (n := 30000) (by push_cast; exact hq)
    exact_mod_cast h

lemma round_clamp_lt_of_le {base X : ℚ} {n : ℤ}
    (hn : (n : ℚ) ≤ min 30000 X) (hbn : base < (n : ℚ)) :
    base < ((round (max 5000 (min 30000 X)) : ℤ) : ℚ) := by
  have h2 : (n : ℚ) ≤ max 5000 (min 30000 X) :=
    le_trans hn (le_max_right _ _)
  have h3 : n ≤ round (max (5000 : ℚ) (min 30000 X)) := le_round_of_cast_le h2
  calc base < (n : ℚ) := hbn
    _ ≤ _ := by exact_mod_cast h3

/-- C5: with fewer than 3 recorded measurements, `getAdaptiveTimeout`
returns exactly the fixed per-category base timeout (navigation 20000,
element 15000, popup 10000, network 8000), regardless of the recorded
outcomes reflected in the rest of the estimator state. -/
theorem getAdaptiveTimeout_insufficient_data (c : OperationType)
    (m : TimeoutMetrics) (h : m.measurementCount < 3) :
    getAdaptiveTimeout c m = baseTimeoutFor c ∧
    baseTimeoutFor .navigation = 20000 ∧ baseTimeoutFor .element = 15000 ∧
    baseTimeoutFor .popup = 10000 ∧ baseTimeoutFor .network = 8000 :=
  ⟨by simp [getAdaptiveTimeout, h], rfl, rfl, rfl, rfl⟩

/-- Witness for C5 at the initial estimator state. -/
theorem getAdaptiveTimeout_insufficient_data_witness :
    initialMetrics.measurementCount < 3 ∧
    getAdaptiveTimeout .navigation initialMetrics =
      baseTimeoutFor .navigation :=
  ⟨by norm_num [initialMetrics],
    (getAdaptiveTimeout_insufficient_data _ _ (by norm_num [initialMetrics])).1⟩

/-- C8: for every estimator state and category, `getAdaptiveTimeout` lies
within `[minTimeout, maxTimeout] = [5000, 30000]` — including the
insufficient-data branch, which returns the per-category base without
passing through the clamp, and after the final rounding. -/
theorem getAdaptiveTimeout_within_range (c : OperationType)
    (m : TimeoutMetrics) :
    adaptiveConfig.minTimeout ≤ getAdaptiveTimeout c m ∧
    getAdaptiveTimeout c m ≤ adaptiveConfig.maxTimeout := by
  show (5000 : ℚ) ≤ getAdaptiveTimeout c m ∧ getAdaptiveTimeout c m ≤ 30000
  by_cases h : m.measurementCount < 3
  · simp only [getAdaptiveTimeout, h, if_true]
    cases c <;> norm_num [baseTimeoutFor]
  · simp only [getAdaptiveTimeout, h, if_false, adaptiveConfig]
    exact round_clamp_mem _

/-- C7: once at least 3 measurements are recorded and the success rate is
below the failure threshold 0.8, `getAdaptiveTimeout` strictly exceeds the
per-category base timeout: the failure multiplier 1.5 is applied and
neither the latency floor nor the `[5000, 30000]` clamp nor the rounding
can bring the value back down to the base. -/
theorem getAdaptiveTimeout_low_success_exceeds_base (c : OperationType)
    (m : TimeoutMetrics) (h3 : 3 ≤ m.measurementCount)
    (hr : m.successRate < adaptiveConfig.successThreshold) :
    baseTimeoutFor c < getAdaptiveTimeout c m := by
  have hcount : ¬ m.measurementCount < 3 := by omega
  have hr' : m.successRate < 4 / 5 := by
    simpa [adaptiveConfig] using hr
  simp only [getAdaptiveTimeout, hcount, if_false, adaptiveConfig, hr', if_true]
  cases c with
  | navigation =>
    simp only [baseTimeoutFor]
    split_ifs with havg
    · exact round_clamp_lt_of_le (n := 30000)
        (le_min (by norm_num) (le_trans (by norm_num) (le_max_left _ _)))
        (by norm_num)
    · exact round_clamp_lt_of_le (n := 30000)
        (le_min (by norm_num) (by norm_num)) (by norm_num)
  | element =>
    simp only [baseTimeoutFor]
    split_ifs with havg
    · exact round_clamp_lt_of_le (n := 22500)
        (le_min (by norm_num) (le_trans (by norm_num) (le_max_left _ _)))
        (by norm_num)
    · exact round_clamp_lt_of_le (n := 22500)
        (le_min (by norm_num) (by norm_num)) (by norm_num)
  | popup =>
    simp only [baseTimeoutFor]
    split_ifs with havg
    · exact round_clamp_lt_of_le (n := 15000)
        (le_min (by norm_num) (le_trans (by norm_num) (le_max_left _ _)))
        (by norm_num)
    · exact round_clamp_lt_of_le (n := 15000)
        (le_min (by norm_num) (by norm_num)) (by norm_num)
  | network =>
    simp only [baseTimeoutFor]
    split_ifs with havg
    · exact round_clamp_lt_of_le (n := 12000)
        (le_min (by norm_num) (le_trans (by norm_num) (le_max_left _ _)))
        (by norm_num)
    · exact round_clamp_lt_of_le (n := 12000)
        (le_min (by norm_num) (by norm_num)) (by norm_num)

/-- Witness for C7 at a state with 3 recorded failures. -/
theorem getAdaptiveTimeout_low_success_exceeds_base_witness :
    (3 ≤ (TimeoutMetrics.mk 0 0 [] 3).measurementCount) ∧
    ((TimeoutMetrics.mk 0 0 [] 3).successRate <
      adaptiveConfig.successThreshold) ∧
    baseTimeoutFor .element <
      getAdaptiveTimeout .element (TimeoutMetrics.mk 0 0 [] 3) :=
  ⟨by norm_num, by norm_num [adaptiveConfig],
    getAdaptiveTimeout_low_success_exceeds_base .element _ (by norm_num)
      (by norm_num [adaptiveConfig])⟩

lemma adaptive_cross_category_example :
    getAdaptiveTimeout .element (recordMeasurementFor .navigation 100 true
      (recordMeasurement 100 true (recordMeasurement 100 true
        initialMetrics))) = 13500 ∧
    getAdaptiveTimeout .element (recordMeasurement 100 true
      (recordMeasurement 100 true initialMetrics)) = 15000 := by
  constructor <;>
    norm_num [getAdaptiveTimeout, recordMeasurementFor, recordMeasurement,
      initialMetrics, adaptiveConfig, baseTimeoutFor, round_eq]

/-- C1 counterexample: the claim that statistics recorded for one category
never influence the timeout derived for another fails at a concrete
state.  After two successful 100ms measurements, `getAdaptiveTimeout` for
`element` is the 15000 base; a third successful 100ms measurement
attributed to a `navigation` operation drops it to 13500 (the success
multiplier kicks in on the single shared metrics record), so recording
under one category changes another category's timeout. -/
theorem recordMeasurement_cross_category_influence :
    getAdaptiveTimeout .element (recordMeasurementFor .navigation 100 true
      (recordMeasurement 100 true (recordMeasurement 100 true
        initialMetrics))) <
    getAdaptiveTimeout .element (recordMeasurement 100 true
      (recordMeasurement 100 true initialMetrics)) := by
  obtain ⟨h1, h2⟩ := adaptive_cross_category_example
  rw [h1, h2]; norm_num

/-- C1 (amended): the estimator keeps a single process-wide statistics
record shared by all categories — `recordMeasurement` takes no category,
so a measurement attributed to any category updates the same state (the
attribution is irrelevant to the resulting state), and there are states
where a measurement attributed to one category changes
`getAdaptiveTimeout` for a different category. -/
theorem recordMeasurement_shared_across_categories :
    (∀ (c1 c1' c2 : OperationType) (rt : ℚ) (s : Bool) (m : TimeoutMetrics),
      getAdaptiveTimeout c2 (recordMeasurementFor c1 rt s m) =
        getAdaptiveTimeout c2 (recordMeasurementFor c1' rt s m)) ∧
    (∃ (c1 c2 : OperationType) (rt : ℚ) (s : Bool) (m : TimeoutMetrics),
      c1 ≠ c2 ∧
      getAdaptiveTimeout c2 (recordMeasurementFor c1 rt s m) ≠
        getAdaptiveTimeout c2 m) := by
  refine ⟨fun _ _ _ _ _ _ => rfl,
    .navigation, .element, 100, true,
    recordMeasurement 100 true (recordMeasurement 100 true initialMetrics),
    by simp, ?_⟩
  obtain ⟨h1, h2⟩ := adaptive_cross_category_example
  rw [h1, h2]; norm_num

lemma recordMeasurement_window_le (rt : ℚ) (s : Bool) (m : TimeoutMetrics)
    (h : m.lastMeasurements.length ≤ 10) :
    (recordMeasurement rt s m).lastMeasurements.length ≤ 10 := by
  cases s with
  | false => simpa [recordMeasurement] using h
  | true =>
    simp only [recordMeasurement, adaptiveConfig, if_true]
    split_ifs with hlen <;> simp_all

lemma recordMeasurement_count_succ (rt : ℚ) (s : Bool) (m : TimeoutMetrics) :
    (recordMeasurement rt s m).measurementCount = m.measurementCount + 1 := by
  cases s <;> simp [recordMeasurement]

lemma recordMeasurement_mem_window (rt : ℚ) (s : Bool) (m : TimeoutMetrics) :
    ∀ x ∈ (recordMeasurement rt s m).lastMeasurements,
      x ∈ m.lastMeasurements ∨ (s = true ∧ x = rt) := by
  intro x hx
  cases s with
  | false => exact Or.inl (by simpa [recordMeasurement] using hx)
  | true =>
    simp only [recordMeasurement, adaptiveConfig, if_true] at hx
    have hx2 : x ∈ m.lastMeasurements ++ [rt] := by
      split_ifs at hx with hlen
      · exact List.mem_of_mem_tail hx
      · exact hx
    rcases List.mem_append.mp hx2 with h | h
    · exact Or.inl h
    · exact Or.inr ⟨rfl, by simpa using h⟩

lemma successDurations_append (l : List (ℚ × Bool)) (rt : ℚ) (s : Bool) :
    successDurations (l ++ [(rt, s)]) =
      if s then successDurations l ++ [rt] else successDurations l := by
  cases s <;> simp [successDurations]

lemma recordMeasurement_window_fifo (rt : ℚ) (m : TimeoutMetrics)
    (ss : List ℚ) (h : m.lastMeasurements = ss.drop (ss.length - 10)) :
    (recordMeasurement rt true m).lastMeasurements =
      (ss ++ [rt]).drop ((ss ++ [rt]).length - 10) := by
  have hshow : (recordMeasurement rt true m).lastMeasurements =
      (if (m.lastMeasurements ++ [rt]).length > adaptiveConfig.measurementWindow
        then (m.lastMeasurements ++ [rt]).tail
        else m.lastMeasurements ++ [rt]) := rfl
  have hdrop : ss.drop (ss.length - 10) ++ [rt] =
      (ss ++ [rt]).drop (ss.length - 10) :=
    (List.drop_append_of_le_length (by omega)).symm
  rw [hshow, h, hdrop]
  split_ifs with hgt
  · rw [List.tail_drop]
    congr 1
    simp only [adaptiveConfig, List.length_drop, List.length_append,
      List.length_singleton] at hgt
    simp only [List.length_append, List.length_singleton]
    omega
  · congr 1
    simp only [adaptiveConfig, List.length_drop, List.length_append,
      List.length_singleton] at hgt
    simp only [List.length_append, List.length_singleton]
    omega

lemma recordMeasurement_rate_eq (rt : ℚ) (s : Bool) (m : TimeoutMetrics) :
    (recordMeasurement rt s m).successRate =
      ((recordMeasurement rt s m).lastMeasurements.length : ℚ) /
        ((min 10 (recordMeasurement rt s m).measurementCount : ℕ) : ℚ) := by
  cases s <;> simp [recordMeasurement, adaptiveConfig]

/-- C6: for every sequence of recorded outcomes applied to the initial
state, the latency window is exactly the suffix of the successful
durations in recording order that keeps the most recent
`min(10, number of successes)` of them — so it never exceeds 10 samples,
only successful durations appear in it, and on overflow the oldest sample
is the one evicted (FIFO) — `measurementCount` counts every call, and
after each call `successRate` equals the number of window samples divided
by `min(10, measurementCount)`. -/
theorem applyMeasurements_invariant (l : List (ℚ × Bool)) :
    (applyMeasurements l).lastMeasurements =
      (successDurations l).drop ((successDurations l).length - 10) ∧
    (applyMeasurements l).lastMeasurements.length ≤ 10 ∧
    (∀ x ∈ (applyMeasurements l).lastMeasurements, ((x, true) : ℚ × Bool) ∈ l) ∧
    (applyMeasurements l).measurementCount = l.length ∧
    (l ≠ [] → (applyMeasurements l).successRate =
      ((applyMeasurements l).lastMeasurements.length : ℚ) /
        ((min 10 (applyMeasurements l).measurementCount : ℕ) : ℚ)) := by
  induction l using List.reverseRecOn with
  | nil => simp [applyMeasurements, initialMetrics, successDurations]
  | append_singleton l p ih =>
    rcases p with ⟨rt, s⟩
    have happ : applyMeasurements (l ++ [(rt, s)]) =
        recordMeasurement rt s (applyMeasurements l) := by
      simp [applyMeasurements, List.foldl_append]
    obtain ⟨ih0, ih1, ih2, ih3, _⟩ := ih
    refine ⟨?_, ?_, ?_, ?_, fun _ => ?_⟩
    · rw [happ, successDurations_append]
      cases s with
      | false => exact ih0
      | true => exact recordMeasurement_window_fifo rt _ _ ih0
    · rw [happ]; exact recordMeasurement_window_le _ _ _ ih1
    · rw [happ]
      intro x hx
      rcases recordMeasurement_mem_window rt s _ x hx with hmem | ⟨hs, hxe⟩
      · exact List.mem_append_left _ (ih2 x hmem)
      · subst hxe
        exact List.mem_append_right _ (by simp [← hs])
    · rw [happ, recordMeasurement_count_succ, ih3]; simp
    · rw [happ]; exact recordMeasurement_rate_eq _ _ _

/-- Witness for C6 at a concrete two-call sequence (one success, one
failure). -/
theorem applyMeasurements_invariant_witness :
    ([((100 : ℚ), true), ((200 : ℚ), false)] ≠ ([] : List (ℚ × Bool))) ∧
    (applyMeasurements [((100 : ℚ), true), ((200 : ℚ), false)]).successRate =
      ((applyMeasurements [((100 : ℚ), true),
        ((200 : ℚ), false)]).lastMeasurements.length : ℚ) /
        ((min 10 (applyMeasurements [((100 : ℚ), true),
          ((200 : ℚ), false)]).measurementCount : ℕ) : ℚ) :=
  ⟨by simp,
    (applyMeasurements_invariant [((100 : ℚ), true), ((200 : ℚ), false)]).2.2.2.2
      (by simp)⟩

/-- C2 evaluated at the failing input: with every fetch answering HTTP
400, `sendTelegramMessage` still performs 3 fetch attempts with backoff
delays 2000ms and 4000ms before rejecting.  The 4xx branch merely logs
"permanent, no retry" and then throws the same way as the 5xx branch, and
`withRetry` retries every rejection uniformly — so, contrary to the
code's own comment and log message, a 4xx response is retried. -/
theorem sendTelegramMessage_retries_after_4xx :
    sendTelegramMessage (fun _ => .response 400 "Bad Request" "err") =
      ⟨.error ⟨"Telegram API error: 400 Bad Request - err"⟩, 3,
        [2000, 4000]⟩ := by
  simp [sendTelegramMessage, withRetry, RETRY_CONFIG, withRetryGo,
    telegramAttempt, retryDelay]
  norm_num
  rfl

lemma waitForAnySelectorGo_spec (wait : String → ℤ → Bool) (slice : ℤ)
    (all : List String) :
    ∀ rest : List String,
      waitForAnySelectorGo wait slice all rest =
        ((match rest.find? (fun s => wait s slice) with
          | some s => Except.ok s
          | none => Except.error (selectorFailureMessage all)),
         (rest.take (rest.findIdx (fun s => wait s slice) + 1)).map
           (fun s => (s, slice))) := by
  intro rest
  induction rest with
  | nil => rfl
  | cons s rest ih =>
    by_cases hw : wait s slice
    · simp [waitForAnySelectorGo, hw, List.findIdx_cons]
    · simp [waitForAnySelectorGo, hw, List.findIdx_cons, ih,
        List.take_succ_cons]

/-- C9: for a non-empty candidate list, the fallback resolver gives every
attempted candidate the identical slice
`floor(timeoutBudget / candidates.length)`, tries candidates strictly in
list order — the attempted trace is exactly the prefix up to and
including the first successful candidate, so no later candidate is tried
after a success — returns the first candidate whose wait succeeds, and
when no candidate resolves within its slice fails with an error listing
all attempted candidates. -/
theorem waitForAnySelector_resolves_in_order (wait : String → ℤ → Bool)
    (selectors : List String) (timeoutBudget : ℚ) (_hne : selectors ≠ ([] : List String)) :
    (waitForAnySelector wait selectors timeoutBudget).1 =
      (match selectors.find? (fun s => wait s
          (Int.floor (timeoutBudget / (selectors.length : ℚ)))) with
       | some s => Except.ok s
       | none => Except.error (selectorFailureMessage selectors)) ∧
    (waitForAnySelector wait selectors timeoutBudget).2 =
      (selectors.take (selectors.findIdx (fun s => wait s
          (Int.floor (timeoutBudget / (selectors.length : ℚ)))) + 1)).map
        (fun s => (s, Int.floor (timeoutBudget / (selectors.length : ℚ)))) := by
  have h := waitForAnySelectorGo_spec wait
    (Int.floor (timeoutBudget / (selectors.length : ℚ))) selectors selectors
  rw [waitForAnySelector, h]
  exact ⟨rfl, rfl⟩

/-- Witness for C9: budget 300 over the two candidates "a", "b" (slice
150 each) where only "b" resolves. -/
theorem waitForAnySelector_resolves_in_order_witness :
    ((["a", "b"] : List String) ≠ []) ∧
    (waitForAnySelector (fun s _ => s == "b") ["a", "b"] 300).1 =
      Except.ok "b" ∧
    (waitForAnySelector (fun s _ => s == "b") ["a", "b"] 300).2 =
      [("a", 150), ("b", 150)] := by
  have h := waitForAnySelector_resolves_in_order (fun s _ => s == "b")
    ["a", "b"] 300 (by simp)
  have hfl : Int.floor ((300 : ℚ) / ((List.length ["a", "b"] : ℕ) : ℚ)) =
      (150 : ℤ) := by
    norm_num
  refine ⟨by simp, ?_, ?_⟩
  · rw [h.1]
    simp
  · rw [h.2, hfl]
    rfl
